import Mathlib

/-!
Shallow embedding of the KubeVirt OfflineVirtualMachine controller
(`pkg/virt-controller/watch/ovm.go`) and of the network-binding-plugin
sidecar resolver (`NetBindingPluginSidecarList`), together with proofs of
the specification claims about them.

Go structs become Lean structures; Go maps become association lists with
explicit insert/lookup; fallible operations return `Except`/`Option`;
side effects (expectation-store calls, API calls, recorded events) become
an explicit trace of `Act` values, with the outcomes of external calls
supplied by an environment record.
-/

/-! ## Sidecar resolver data model (from `NetBindingPluginSidecarList`) -/

/-- `v1.InterfaceBindingPlugin`: catalog entry for a network binding plugin.
Only the field read by the resolver is modelled. -/
structure InterfaceBindingPlugin where
  sidecarImage : String
deriving DecidableEq, Repr

/-- `v1.PluginBinding` as referenced by `iface.Binding.Name`. -/
structure PluginBinding where
  name : String
deriving DecidableEq, Repr

/-- A VMI network interface; `binding` models the nillable `Binding` pointer. -/
structure Iface where
  binding : Option PluginBinding
deriving DecidableEq, Repr

/-- `v1.NetworkConfiguration`: `binding` models the nillable Go map
`Binding map[string]InterfaceBindingPlugin` as an association list. -/
structure NetworkConfiguration where
  binding : Option (List (String × InterfaceBindingPlugin))
deriving DecidableEq, Repr

/-- `v1.KubeVirtConfiguration` (the part the resolver reads). -/
structure KubeVirtConfiguration where
  networkConfiguration : Option NetworkConfiguration
deriving DecidableEq, Repr

/-- `vmi.Spec.Domain.Devices.Interfaces`, flattened to the field the
resolver iterates. -/
structure VirtualMachineInstance where
  interfaces : List Iface
deriving DecidableEq, Repr

/-- `hooks.HookSidecar`. -/
structure HookSidecar where
  image : String
deriving DecidableEq, Repr

/-- The combined Go lookup `config.NetworkConfiguration != nil &&
config.NetworkConfiguration.Binding != nil && Binding[name]`: `none` both
when the catalog is absent and when the key is missing (in Go, `exist`
stays `false` in both cases). -/
def lookupBinding (config : KubeVirtConfiguration) (name : String) :
    Option InterfaceBindingPlugin :=
  match config.networkConfiguration with
  | none => none
  | some nc =>
    match nc.binding with
    | none => none
    | some catalog => catalog.lookup name

/-- Go map assignment `bindingByName[k] = v`: overwrite when the key is
present, otherwise append (first-insertion order stands in for Go's
unspecified iteration order). -/
def mapInsert (m : List (String × InterfaceBindingPlugin)) (k : String)
    (v : InterfaceBindingPlugin) : List (String × InterfaceBindingPlugin) :=
  if m.any (fun kv => kv.1 == k) then
    m.map (fun kv => if kv.1 == k then (k, v) else kv)
  else m ++ [(k, v)]

/-- First loop of `NetBindingPluginSidecarList`: build `bindingByName`,
failing on the first interface whose binding name has no catalog entry. -/
def buildBindingByName (config : KubeVirtConfiguration) :
    List Iface → List (String × InterfaceBindingPlugin) →
    Except String (List (String × InterfaceBindingPlugin))
  | [], acc => .ok acc
  | iface :: rest, acc =>
    match iface.binding with
    | none => buildBindingByName config rest acc
    | some b =>
      match lookupBinding config b.name with
      | some pluginInfo => buildBindingByName config rest (mapInsert acc b.name pluginInfo)
      | none => .error ("couldn't find configuration for network bindining: " ++ b.name)

/-- `NetBindingPluginSidecarList(vmi, config)`: resolve every declared
interface binding through the catalog, then emit one sidecar per distinct
binding name whose plugin has a non-empty `sidecarImage`. -/
def NetBindingPluginSidecarList (vmi : VirtualMachineInstance)
    (config : KubeVirtConfiguration) : Except String (List HookSidecar) :=
  match buildBindingByName config vmi.interfaces [] with
  | .error e => .error e
  | .ok m =>
    .ok (m.filterMap (fun kv =>
      if kv.2.sidecarImage ≠ "" then some ⟨kv.2.sidecarImage⟩ else none))

/-! ### Specification-side helpers for the sidecar claims -/

/-- Spec-side: the binding names a VMI declares, in interface order. -/
def declaredBindingNames (vmi : VirtualMachineInstance) : List String :=
  vmi.interfaces.filterMap (fun iface => iface.binding.map (fun b => b.name))

/-- Spec-side: keep the first occurrence of each name (Go-map key set in
first-insertion order). -/
def insertNewKey (acc : List String) (n : String) : List String :=
  if acc.contains n then acc else acc ++ [n]

/-- Spec-side: first-occurrence deduplication of a name list. -/
def dedupNames (names : List String) : List String :=
  names.foldl insertNewKey []

/-- Spec-side: the sidecar a distinct binding name contributes (nothing when
its catalog entry has an empty image). -/
def sidecarForName (config : KubeVirtConfiguration) (n : String) :
    Option HookSidecar :=
  match lookupBinding config n with
  | some p => if p.sidecarImage ≠ "" then some ⟨p.sidecarImage⟩ else none
  | none => none

/-- Spec-side: the first declared binding name whose catalog lookup fails. -/
def firstAbsentName (config : KubeVirtConfiguration) : List Iface → Option String
  | [] => none
  | iface :: rest =>
    match iface.binding with
    | none => firstAbsentName config rest
    | some b =>
      match lookupBinding config b.name with
      | some _ => firstAbsentName config rest
      | none => some b.name

/-! ## Controller data model (from `pkg/virt-controller/watch/ovm.go`) -/

/-- `metav1.OwnerReference`; the nillable `*bool` fields are modelled as
`Bool` (the code always sets them through `&t` with `t := true`). -/
structure OwnerReference where
  apiVersion : String
  kind : String
  name : String
  uid : String
  controller : Bool
  blockOwnerDeletion : Bool
deriving DecidableEq, Repr

/-- `metav1.ObjectMeta`, restricted to the fields the controller reads or
writes. `labels` models the Go label map as an association list;
`deletionTimestamp` models the nillable `*Time`. -/
structure ObjectMeta where
  name : String
  generateName : String
  ns : String
  uid : String
  labels : List (String × String)
  ownerReferences : List OwnerReference
  deletionTimestamp : Option Nat
  finalizers : List String
deriving DecidableEq, Repr

/-- `metav1.LabelSelector`: `matchLabels` as an association list; `valid`
records whether `LabelSelectorAsSelector` succeeds on it (it fails only on
malformed match expressions, which we do not model structurally). -/
structure LabelSelector where
  matchLabels : List (String × String)
  valid : Bool
deriving DecidableEq, Repr

/-- `v1.LabelSelectorAsSelector`: `none` exactly when parsing fails. -/
def labelSelectorAsSelector (s : LabelSelector) : Option (List (String × String)) :=
  if s.valid then some s.matchLabels else none

/-- `selector.Matches(labels.Set(lbls))`: every required key maps to the
required value. -/
def selMatches (sel : List (String × String)) (lbls : List (String × String)) : Bool :=
  sel.all (fun kv => lbls.lookup kv.1 == some kv.2)

/-- A `virtv1.VirtualMachine` (the child). `spec` is kept opaque; `final`
models the `IsFinal()` phase predicate. -/
structure VirtualMachine where
  metadata : ObjectMeta
  spec : String
  final : Bool
deriving DecidableEq, Repr

/-- `virtv1.VMTemplateSpec` (`ovm.Spec.Template`). -/
structure VMTemplateSpec where
  objectMeta : ObjectMeta
  spec : String
deriving DecidableEq, Repr

/-- Condition types `OfflineVirtualMachineRunning` / `OfflineVirtualMachineFailure`. -/
inductive OvmConditionType
  | Running
  | Failure
deriving DecidableEq, Repr

/-- `virtv1.OfflineVirtualMachineCondition`; `status` models
`k8score.ConditionTrue` as `true`, `lastTransitionTime` as a `Nat` clock. -/
structure OvmCondition where
  condType : OvmConditionType
  status : Bool
  reason : String
  message : String
  lastTransitionTime : Nat
deriving DecidableEq, Repr

/-- `virtv1.OfflineVirtualMachineSpec`: the nillable template and selector
pointers become `Option`. -/
structure OvmSpec where
  running : Bool
  template : Option VMTemplateSpec
  selector : Option LabelSelector
deriving DecidableEq, Repr

/-- `virtv1.OfflineVirtualMachineStatus`. -/
structure OvmStatus where
  conditions : List OvmCondition
deriving DecidableEq, Repr

/-- `virtv1.OfflineVirtualMachine` (the parent). -/
structure OfflineVirtualMachine where
  metadata : ObjectMeta
  spec : OvmSpec
  status : OvmStatus
deriving DecidableEq, Repr

/-- `virtv1.OfflineVirtualMachineGroupVersionKind.Kind`. -/
def OfflineVirtualMachineKind : String := "OfflineVirtualMachine"

/-- `virtv1.OfflineVirtualMachineGroupVersionKind.GroupVersion().String()`. -/
def OfflineVirtualMachineAPIVersion : String := "kubevirt.io/v1alpha1"

/-- `v1.FinalizerOrphanDependents`. -/
def finalizerOrphanDependents : String := "orphan"

/-- Event reason constants. Modelled from the spec: the constants
(`FailedCreateVirtualMachineReason` etc.) are declared outside this file;
the spec lists the reasons as `SuccessfulCreate`, `FailedCreate`,
`SuccessfulDelete`, `FailedDelete`, `SuccessfulPausedReplicaSet`,
`SuccessfulResumedReplicaSet`. -/
def FailedCreateVirtualMachineReason : String := "FailedCreate"

/-- Modelled from the spec: see `FailedCreateVirtualMachineReason`. -/
def SuccessfulCreateVirtualMachineReason : String := "SuccessfulCreate"

/-- Modelled from the spec: see `FailedCreateVirtualMachineReason`. -/
def FailedDeleteVirtualMachineReason : String := "FailedDelete"

/-- Modelled from the spec: see `FailedCreateVirtualMachineReason`. -/
def SuccessfulDeleteVirtualMachineReason : String := "SuccessfulDelete"

/-- Modelled from the spec: see `FailedCreateVirtualMachineReason`. -/
def SuccessfulPausedReplicaSetReason : String := "SuccessfulPausedReplicaSet"

/-- Modelled from the spec: see `FailedCreateVirtualMachineReason`. -/
def SuccessfulResumedReplicaSetReason : String := "SuccessfulResumedReplicaSet"

/-- `controller.KeyFunc(ovm)`: the `namespace/name` cache key. -/
def ovmKeyOf (ovm : OfflineVirtualMachine) : String :=
  ovm.metadata.ns ++ "/" ++ ovm.metadata.name

/-- `controller.VirtualMachineKey(vm)`. -/
def vmKeyOf (vm : VirtualMachine) : String :=
  vm.metadata.ns ++ "/" ++ vm.metadata.name

/-- Event severity (`k8score.EventTypeNormal` / `EventTypeWarning`). -/
inductive EventType
  | normal
  | warning
deriving DecidableEq, Repr

/-- One observable side effect of a reconcile: expectation-store calls,
API calls on the parent/child collections, adoption-manager releases and
recorded events, in program order. -/
inductive Act
  | deleteExpectations (key : String)
  | expectCreations (key : String) (n : Nat)
  | creationObserved (key : String)
  | expectDeletions (key : String) (childKeys : List String)
  | deletionObserved (key : String) (childKey : String)
  | apiCreate (ns : String) (vm : VirtualMachine)
  | apiDelete (ns : String) (name : String)
  | apiUpdateOvm (ovm : OfflineVirtualMachine)
  | releaseVM (childKey : String)
  | event (etype : EventType) (reason : String)
deriving DecidableEq, Repr

/-- Outcomes of the external collaborators consulted during one reconcile:
the parent cache (`GetByKey`), the expectations store (`SatisfiedExpectations`),
the child cache (`listVMsFromNamespace`), the adoption manager
(`ClaimVirtualMachines`, with the API actions it performed), and the API
client's create/delete/update replies. `now` is the clock read by
`v1.Now()`. -/
structure ReconcileEnv where
  getOvm : Except String (Option OfflineVirtualMachine)
  satisfied : Bool
  listVMs : Except String (List VirtualMachine)
  claim : List VirtualMachine → Except String (List VirtualMachine) × List Act
  createResult : Except String Unit
  deleteResult : Except String Unit
  updateResult : Except String Unit
  orphanResult : Option String
  now : Nat

/-! ## Controller operations -/

/-- `getVirtualMachineBaseName`: template name, else template generateName,
else the parent's name. The `none` template case is unreachable from
`execute` (validation rejects it first; in Go it would nil-panic). -/
def getVirtualMachineBaseName (ovm : OfflineVirtualMachine) : String :=
  match ovm.spec.template with
  | some tpl =>
    if tpl.objectMeta.name.length > 0 then tpl.objectMeta.name
    else if tpl.objectMeta.generateName.length > 0 then tpl.objectMeta.generateName
    else ovm.metadata.name
  | none => ovm.metadata.name

/-- The child built inside `startStop` before the create call: a copy of the
template's objectMeta and spec with `name`/`generateName` set to the base
name, labels taken from the template, and a single controller owner
reference to the parent. The `none` template case is unreachable from
`execute` (in Go it would nil-panic). -/
def buildVirtualMachine (ovm : OfflineVirtualMachine) : VirtualMachine :=
  let basename := getVirtualMachineBaseName ovm
  let ref : OwnerReference :=
    { apiVersion := OfflineVirtualMachineAPIVersion
      kind := OfflineVirtualMachineKind
      name := ovm.metadata.name
      uid := ovm.metadata.uid
      controller := true
      blockOwnerDeletion := true }
  match ovm.spec.template with
  | some tpl =>
    { metadata :=
        { tpl.objectMeta with
          name := basename
          generateName := basename
          labels := tpl.objectMeta.labels
          ownerReferences := [ref] }
      spec := tpl.spec
      final := false }
  | none =>
    { metadata :=
        { name := basename, generateName := basename, ns := ovm.metadata.ns
          uid := "", labels := [], ownerReferences := [ref]
          deletionTimestamp := none, finalizers := [] }
      spec := ""
      final := false }

/-- `startStop(ovm, vm)`: create the child when `running` and none exists,
delete it when not `running` and one exists; expectations are recorded
before each API call and rolled back (with a warning event) on failure. -/
def startStop (env : ReconcileEnv) (ovm : OfflineVirtualMachine)
    (vm : Option VirtualMachine) : Option String × List Act :=
  let key := ovmKeyOf ovm
  if ovm.spec.running then
    match vm with
    | some _ => (none, [])
    | none =>
      let child := buildVirtualMachine ovm
      match env.createResult with
      | .error e =>
        (some e,
         [Act.expectCreations key 1,
          Act.apiCreate ovm.metadata.ns child,
          Act.creationObserved key,
          Act.event .warning FailedCreateVirtualMachineReason])
      | .ok _ =>
        (none,
         [Act.expectCreations key 1,
          Act.apiCreate ovm.metadata.ns child,
          Act.event .normal SuccessfulCreateVirtualMachineReason])
  else
    match vm with
    | none => (none, [])
    | some v =>
      match env.deleteResult with
      | .error e =>
        (some e,
         [Act.expectDeletions key [vmKeyOf v],
          Act.apiDelete ovm.metadata.ns v.metadata.name,
          Act.deletionObserved key (vmKeyOf v),
          Act.event .warning FailedDeleteVirtualMachineReason])
      | .ok _ =>
        (none,
         [Act.expectDeletions key [vmKeyOf v],
          Act.apiDelete ovm.metadata.ns v.metadata.name,
          Act.event .normal SuccessfulDeleteVirtualMachineReason])

/-- `hasCondition(ovm, cond)`. -/
def hasCondition (ovm : OfflineVirtualMachine) (cond : OvmConditionType) : Bool :=
  ovm.status.conditions.any (fun c => c.condType == cond)

/-- `removeCondition(ovm, cond)`: keep every condition of a different type. -/
def removeCondition (ovm : OfflineVirtualMachine) (cond : OvmConditionType) :
    OfflineVirtualMachine :=
  { ovm with status :=
      { conditions := ovm.status.conditions.filter (fun c => c.condType != cond) } }

/-- `processFailure(ovm, createErr)`: append a `Failure` condition when an
error appeared and none is present; drop it when the error cleared. -/
def processFailure (ovm : OfflineVirtualMachine) (createErr : Option String)
    (now : Nat) : OfflineVirtualMachine :=
  match createErr with
  | some msg =>
    if !hasCondition ovm .Failure then
      { ovm with status :=
          { conditions := ovm.status.conditions ++
              [{ condType := .Failure
                 status := true
                 reason := if ovm.spec.running then "FailedCreate" else "FailedDelete"
                 message := msg
                 lastTransitionTime := now }] } }
    else ovm
  | none =>
    if hasCondition ovm .Failure then removeCondition ovm .Failure else ovm

/-- `processRunning(ovm, vm, createErr)`: append a `Running` condition when
the parent wants to run and the last scale attempt did not fail; otherwise
remove any `Running` condition. The `vm` argument is accepted and ignored,
as in the source. -/
def processRunning (ovm : OfflineVirtualMachine) (_vm : Option VirtualMachine)
    (createErr : Option String) (now : Nat) : OfflineVirtualMachine :=
  if ovm.spec.running && createErr == none && !hasCondition ovm .Running then
    { ovm with status :=
        { conditions := ovm.status.conditions ++
            [{ condType := .Running
               status := true
               reason := "Created by OVM " ++ ovm.metadata.name
               message := "Created by OVM " ++ ovm.metadata.name
               lastTransitionTime := now }] } }
  else removeCondition ovm .Running

/-- `updateStatus(ovm, vm, createErr)`: skip the write when both the error
state and the running state already agree with the condition set; otherwise
recompute the conditions, issue the update, and on success emit a
transition event when the running state flipped. -/
def updateStatus (env : ReconcileEnv) (ovm : OfflineVirtualMachine)
    (vm : Option VirtualMachine) (createErr : Option String) :
    Option String × List Act :=
  let errorsMatch := createErr.isSome == hasCondition ovm .Failure
  let stoppedMatch := ovm.spec.running == hasCondition ovm .Running
  if errorsMatch && stoppedMatch then (none, [])
  else
    let o1 := processFailure ovm createErr env.now
    let o2 := processRunning o1 vm createErr env.now
    match env.updateResult with
    | .error e => (some e, [Act.apiUpdateOvm o2])
    | .ok _ =>
      let evs :=
        if !stoppedMatch then
          [Act.event .normal
            (if ovm.spec.running then SuccessfulPausedReplicaSetReason
             else SuccessfulResumedReplicaSetReason)]
        else []
      (none, Act.apiUpdateOvm o2 :: evs)

/-- `orphan(cm, vms)`: release every owned child; the first error seen (if
any) is supplied by the environment. -/
def orphan (env : ReconcileEnv) (vms : List VirtualMachine) :
    Option String × List Act :=
  (env.orphanResult, vms.map (fun v => Act.releaseVM (vmKeyOf v)))

/-- `execute(key)`: one reconcile pass. Mirrors the source control flow:
a parent-cache lookup error returns nil; a missing parent clears
expectations; an invalid parent (missing template/selector/labels, selector
parse failure, selector not matching the template labels) returns nil with
no further work; list and claim errors are returned; more than one owned
child returns the stale (nil) claim error; otherwise scale (when
expectations are satisfied and no deletion is in progress), or run the
orphan path, or update the status. -/
def execute (env : ReconcileEnv) (key : String) : Option String × List Act :=
  match env.getOvm with
  | .error _ => (none, [])
  | .ok none => (none, [Act.deleteExpectations key])
  | .ok (some ovm) =>
    match ovm.spec.template, ovm.spec.selector with
    | none, _ => (none, [])
    | some _, none => (none, [])
    | some tpl, some sel =>
      if tpl.objectMeta.labels.length == 0 then (none, [])
      else
        match labelSelectorAsSelector sel with
        | none => (none, [])
        | some s =>
          if !selMatches s tpl.objectMeta.labels then (none, [])
          else
            let needsSync := env.satisfied
            match env.listVMs with
            | .error e => (some e, [])
            | .ok allVms =>
              let active := allVms.filter (fun v => !v.final)
              let claimed := env.claim active
              match claimed.1 with
              | .error e => (some e, claimed.2)
              | .ok owned =>
                if owned.length > 1 then
                  (none, claimed.2)
                else
                  let vm := owned.head?
                  let scaled :=
                    if needsSync && ovm.metadata.deletionTimestamp == none then
                      startStop env ovm vm
                    else (none, [])
                  if ovm.metadata.deletionTimestamp != none &&
                      ovm.metadata.finalizers.contains finalizerOrphanDependents then
                    let o := orphan env owned
                    (o.1, claimed.2 ++ scaled.2 ++ o.2)
                  else
                    let updated := updateStatus env ovm vm scaled.1
                    (updated.1, claimed.2 ++ scaled.2 ++ updated.2)

/-- The queue step taken by `Execute` after `execute(key)` returns:
re-enqueue with rate-limited backoff on error, forget (reset backoff) on
success. -/
inductive QueueOp
  | addRateLimited (key : String)
  | forget (key : String)
deriving DecidableEq, Repr

/-- Lines 110-116 of `Execute`: the requeue decision from `execute`'s
return value. -/
def executeStep (res : Option String) (key : String) : QueueOp :=
  match res with
  | some _ => .addRateLimited key
  | none => .forget key

/-! ## Lemmas about the sidecar resolver -/

/-- When some declared binding is absent, `buildBindingByName` fails with a
message naming the first absent binding name, whatever the accumulator. -/
theorem buildBindingByName_error (config : KubeVirtConfiguration)
    (ifaces : List Iface) (n : String)
    (h : firstAbsentName config ifaces = some n) :
    ∀ acc, buildBindingByName config ifaces acc =
      .error ("couldn't find configuration for network bindining: " ++ n) := by
  induction ifaces with
  | nil => simp [firstAbsentName] at h
  | cons iface rest ih =>
    intro acc
    cases hb : iface.binding with
    | none =>
      simp [firstAbsentName, hb] at h
      simp [buildBindingByName, hb, ih h]
    | some b =>
      cases hl : lookupBinding config b.name with
      | none =>
        simp [firstAbsentName, hb, hl] at h
        subst h
        simp [buildBindingByName, hb, hl]
      | some p =>
        simp [firstAbsentName, hb, hl] at h
        simp [buildBindingByName, hb, hl, ih h]

/-- The first absent name is itself a declared binding name whose lookup
fails. -/
theorem firstAbsentName_sound (config : KubeVirtConfiguration)
    (ifaces : List Iface) (n : String)
    (h : firstAbsentName config ifaces = some n) :
    ∃ iface ∈ ifaces, ∃ b, iface.binding = some b ∧ b.name = n ∧
      lookupBinding config n = none := by
  induction ifaces with
  | nil => simp [firstAbsentName] at h
  | cons iface rest ih =>
    cases hb : iface.binding with
    | none =>
      simp [firstAbsentName, hb] at h
      obtain ⟨i, hi, b, hb', hn, hl⟩ := ih h
      exact ⟨i, List.mem_cons_of_mem _ hi, b, hb', hn, hl⟩
    | some b =>
      cases hl : lookupBinding config b.name with
      | none =>
        simp [firstAbsentName, hb, hl] at h
        subst h
        exact ⟨iface, List.mem_cons_self _ _, b, hb, rfl, hl⟩
      | some p =>
        simp [firstAbsentName, hb, hl] at h
        obtain ⟨i, hi, b', hb', hn, hl'⟩ := ih h
        exact ⟨i, List.mem_cons_of_mem _ hi, b', hb', hn, hl'⟩

/-- A declared binding with a failed lookup forces `firstAbsentName` to
produce something. -/
theorem firstAbsentName_exists (config : KubeVirtConfiguration)
    (ifaces : List Iface) (iface : Iface) (b : PluginBinding)
    (hmem : iface ∈ ifaces) (hb : iface.binding = some b)
    (habs : lookupBinding config b.name = none) :
    ∃ n, firstAbsentName config ifaces = some n := by
  induction ifaces with
  | nil => cases hmem
  | cons hd rest ih =>
    cases List.mem_cons.mp hmem with
    | inl heq =>
      subst heq
      simp [firstAbsentName, hb, habs]
    | inr htail =>
      cases hhd : hd.binding with
      | none => simpa [firstAbsentName, hhd] using ih htail
      | some b' =>
        cases hl : lookupBinding config b'.name with
        | none => simp [firstAbsentName, hhd, hl]
        | some p => simpa [firstAbsentName, hhd, hl] using ih htail

/-- C8: a VMI declaring an interface whose binding name is absent from the
binding catalog (also when the catalog itself is absent, since
`lookupBinding` is then `none`) makes the resolver return an error and no
sidecar list; the error message spells out an absent declared binding name,
and when the absent binding name is unique it is exactly the declared one. -/
theorem c8_unknown_binding_is_error (vmi : VirtualMachineInstance)
    (config : KubeVirtConfiguration) (iface : Iface) (b : PluginBinding)
    (hmem : iface ∈ vmi.interfaces) (hb : iface.binding = some b)
    (habs : lookupBinding config b.name = none) :
    ∃ msg, NetBindingPluginSidecarList vmi config = .error msg ∧
      (∀ l, NetBindingPluginSidecarList vmi config ≠ .ok l) ∧
      (∃ iface2 ∈ vmi.interfaces, ∃ b2, iface2.binding = some b2 ∧
        lookupBinding config b2.name = none ∧
        msg = "couldn't find configuration for network bindining: " ++ b2.name) ∧
      ((∀ iface2 ∈ vmi.interfaces, ∀ b2, iface2.binding = some b2 →
          lookupBinding config b2.name = none → b2.name = b.name) →
        msg = "couldn't find configuration for network bindining: " ++ b.name) := by
  obtain ⟨n, hn⟩ := firstAbsentName_exists config vmi.interfaces iface b hmem hb habs
  obtain ⟨i2, hi2, b2, hb2, hname, hl2⟩ := firstAbsentName_sound config vmi.interfaces n hn
  have herr := buildBindingByName_error config vmi.interfaces n hn []
  refine ⟨"couldn't find configuration for network bindining: " ++ n, ?_, ?_, ?_, ?_⟩
  · simp [NetBindingPluginSidecarList, herr]
  · intro l h
    rw [NetBindingPluginSidecarList, herr] at h
    cases h
  · exact ⟨i2, hi2, b2, hb2, hname ▸ hl2, by rw [hname]⟩
  · intro huniq
    have : b2.name = b.name := huniq i2 hi2 b2 hb2 (hname ▸ hl2)
    rw [hname] at this
    rw [this]

/-- C8 witness: two interfaces binding `A` (present) and `C` (absent); the
resolver errors with a message naming `C`. -/
theorem c8_witness :
    (⟨[⟨some ⟨"A"⟩⟩, ⟨some ⟨"C"⟩⟩]⟩ : VirtualMachineInstance).interfaces.contains ⟨some ⟨"C"⟩⟩ = true ∧
    lookupBinding ⟨some ⟨some [("A", ⟨"img-a"⟩)]⟩⟩ "C" = none ∧
    ∃ msg, NetBindingPluginSidecarList ⟨[⟨some ⟨"A"⟩⟩, ⟨some ⟨"C"⟩⟩]⟩ ⟨some ⟨some [("A", ⟨"img-a"⟩)]⟩⟩ = .error msg := by
  refine ⟨by decide, by decide, ?_⟩
  obtain ⟨msg, hmsg, -⟩ :=
    c8_unknown_binding_is_error ⟨[⟨some ⟨"A"⟩⟩, ⟨some ⟨"C"⟩⟩]⟩
      ⟨some ⟨some [("A", ⟨"img-a"⟩)]⟩⟩ ⟨some ⟨"C"⟩⟩ ⟨"C"⟩
      (by simp) (by rfl) (by rfl)
  exact ⟨msg, hmsg⟩

/-- Go-map insertion tracks first-occurrence key insertion. -/
theorem mapInsert_fst (m : List (String × InterfaceBindingPlugin)) (k : String)
    (v : InterfaceBindingPlugin) :
    (mapInsert m k v).map Prod.fst = insertNewKey (m.map Prod.fst) k := by
  have hiff : (m.any (fun kv => kv.1 == k) = true) ↔ ((m.map Prod.fst).contains k = true) := by
    simp [List.any_eq_true, List.mem_map, beq_iff_eq]
  unfold mapInsert insertNewKey
  by_cases h : m.any (fun kv => kv.1 == k) = true
  · rw [if_pos h, if_pos (hiff.mp h)]
    rw [List.map_map]
    apply List.map_congr_left
    intro kv _
    by_cases hk : kv.1 = k
    · simp only [Function.comp_apply, hk, beq_self_eq_true, if_true]
    · have hk' : (kv.1 == k) = false := beq_eq_false_iff_ne.mpr hk
      simp only [Function.comp_apply, hk', Bool.false_eq_true, if_false]
  · rw [if_neg h, if_neg (fun hc => h (hiff.mpr hc))]
    simp

/-- Go-map insertion preserves the invariant that every stored value is the
catalog entry of its key. -/
theorem mapInsert_values (config : KubeVirtConfiguration)
    (m : List (String × InterfaceBindingPlugin)) (k : String)
    (v : InterfaceBindingPlugin)
    (hm : ∀ kv ∈ m, lookupBinding config kv.1 = some kv.2)
    (hv : lookupBinding config k = some v) :
    ∀ kv ∈ mapInsert m k v, lookupBinding config kv.1 = some kv.2 := by
  intro kv hkv
  unfold mapInsert at hkv
  by_cases h : m.any (fun kv => kv.1 == k) = true
  · rw [if_pos h] at hkv
    obtain ⟨kv', hkv', heq⟩ := List.mem_map.mp hkv
    by_cases hk : kv'.1 == k
    · rw [if_pos hk] at heq
      subst heq
      exact hv
    · rw [if_neg hk] at heq
      subst heq
      exact hm kv' hkv'
  · rw [if_neg h] at hkv
    rcases List.mem_append.mp hkv with hl | hr
    · exact hm kv hl
    · rw [List.mem_singleton.mp hr]
      exact hv

/-- When every declared binding resolves, the first loop succeeds and the
resulting map's keys extend the accumulator's keys by first-occurrence
insertion of the declared names; every stored value is its key's catalog
entry. -/
theorem buildBindingByName_ok (config : KubeVirtConfiguration)
    (ifaces : List Iface) :
    ∀ acc,
      (∀ iface ∈ ifaces, ∀ b, iface.binding = some b →
        (lookupBinding config b.name).isSome) →
      (∀ kv ∈ acc, lookupBinding config kv.1 = some kv.2) →
      ∃ m, buildBindingByName config ifaces acc = .ok m ∧
        m.map Prod.fst =
          (ifaces.filterMap (fun iface => iface.binding.map (fun b => b.name))).foldl
            insertNewKey (acc.map Prod.fst) ∧
        (∀ kv ∈ m, lookupBinding config kv.1 = some kv.2) := by
  induction ifaces with
  | nil =>
    intro acc _ hacc
    exact ⟨acc, rfl, rfl, hacc⟩
  | cons iface rest ih =>
    intro acc hall hacc
    cases hb : iface.binding with
    | none =>
      have hrest : ∀ i ∈ rest, ∀ b, i.binding = some b →
          (lookupBinding config b.name).isSome :=
        fun i hi => hall i (List.mem_cons_of_mem _ hi)
      obtain ⟨m, hm, hkeys, hvals⟩ := ih acc hrest hacc
      exact ⟨m, by simpa [buildBindingByName, hb] using hm,
        by simpa [hb] using hkeys, hvals⟩
    | some b =>
      have hsome : (lookupBinding config b.name).isSome :=
        hall iface (List.mem_cons_self _ _) b hb
      obtain ⟨p, hp⟩ := Option.isSome_iff_exists.mp hsome
      have hrest : ∀ i ∈ rest, ∀ b, i.binding = some b →
          (lookupBinding config b.name).isSome :=
        fun i hi => hall i (List.mem_cons_of_mem _ hi)
      obtain ⟨m, hm, hkeys, hvals⟩ :=
        ih (mapInsert acc b.name p) hrest (mapInsert_values config acc b.name p hacc hp)
      refine ⟨m, by simpa [buildBindingByName, hb, hp] using hm, ?_, hvals⟩
      rw [hkeys, mapInsert_fst]
      simp [hb]

/-- First-occurrence insertion keeps the key list duplicate-free. -/
theorem foldl_insertNewKey_nodup (names : List String) :
    ∀ acc : List String, acc.Nodup → (names.foldl insertNewKey acc).Nodup := by
  induction names with
  | nil => intro acc hacc; exact hacc
  | cons n rest ih =>
    intro acc hacc
    rw [List.foldl_cons]
    apply ih
    unfold insertNewKey
    by_cases h : acc.contains n = true
    · rw [if_pos h]; exact hacc
    · rw [if_neg h]
      have hn : n ∉ acc := by
        intro hmem
        exact h (List.elem_eq_true_of_mem hmem)
      simp [List.nodup_append, hacc, hn]

/-- When every stored value is its key's catalog entry, emitting sidecars
from the map is emitting sidecars from its key list. -/
theorem filterMap_sidecars (config : KubeVirtConfiguration)
    (m : List (String × InterfaceBindingPlugin))
    (hm : ∀ kv ∈ m, lookupBinding config kv.1 = some kv.2) :
    m.filterMap (fun kv =>
        if kv.2.sidecarImage ≠ "" then some ⟨kv.2.sidecarImage⟩ else none) =
      (m.map Prod.fst).filterMap (sidecarForName config) := by
  induction m with
  | nil => rfl
  | cons kv rest ih =>
    have hkv := hm kv (List.mem_cons_self _ _)
    have hrest := fun kv' h => hm kv' (List.mem_cons_of_mem _ h)
    rw [List.map_cons, List.filterMap_cons, List.filterMap_cons, ih hrest]
    have : sidecarForName config kv.1 =
        (if kv.2.sidecarImage ≠ "" then some ⟨kv.2.sidecarImage⟩ else none) := by
      unfold sidecarForName
      rw [hkv]
    rw [this]

/-- C9: when every declared binding name resolves in the catalog, the
resolver succeeds and emits exactly one sidecar per distinct declared
binding name whose catalog entry has a non-empty image (first-occurrence
deduplication by name); names with an empty image contribute nothing. -/
theorem c9_one_sidecar_per_distinct_binding (vmi : VirtualMachineInstance)
    (config : KubeVirtConfiguration)
    (hall : ∀ iface ∈ vmi.interfaces, ∀ b, iface.binding = some b →
      (lookupBinding config b.name).isSome) :
    NetBindingPluginSidecarList vmi config =
      .ok ((dedupNames (declaredBindingNames vmi)).filterMap (sidecarForName config)) ∧
    (dedupNames (declaredBindingNames vmi)).Nodup := by
  obtain ⟨m, hm, hkeys, hvals⟩ :=
    buildBindingByName_ok config vmi.interfaces [] hall (by intro kv h; cases h)
  constructor
  · simp only [NetBindingPluginSidecarList, hm]
    rw [filterMap_sidecars config m hvals, hkeys]
    rfl
  · exact foldl_insertNewKey_nodup _ [] List.nodup_nil

/-- C9 witness: bindings `A` (image `img-a`), `B` (empty image), and `A`
again collapse to the single sidecar `img-a`. -/
theorem c9_witness :
    (∀ iface ∈ ([⟨some ⟨"A"⟩⟩, ⟨some ⟨"B"⟩⟩, ⟨none⟩, ⟨some ⟨"A"⟩⟩] : List Iface),
      ∀ b, iface.binding = some b →
        (lookupBinding ⟨some ⟨some [("A", ⟨"img-a"⟩), ("B", ⟨""⟩)]⟩⟩ b.name).isSome) ∧
    NetBindingPluginSidecarList ⟨[⟨some ⟨"A"⟩⟩, ⟨some ⟨"B"⟩⟩, ⟨none⟩, ⟨some ⟨"A"⟩⟩]⟩
      ⟨some ⟨some [("A", ⟨"img-a"⟩), ("B", ⟨""⟩)]⟩⟩ = .ok [⟨"img-a"⟩] := by
  have h : ∀ iface ∈ ([⟨some ⟨"A"⟩⟩, ⟨some ⟨"B"⟩⟩, ⟨none⟩, ⟨some ⟨"A"⟩⟩] : List Iface),
      ∀ b, iface.binding = some b →
        (lookupBinding ⟨some ⟨some [("A", ⟨"img-a"⟩), ("B", ⟨""⟩)]⟩⟩ b.name).isSome := by
    decide
  refine ⟨h, ?_⟩
  have := (c9_one_sidecar_per_distinct_binding
    ⟨[⟨some ⟨"A"⟩⟩, ⟨some ⟨"B"⟩⟩, ⟨none⟩, ⟨some ⟨"A"⟩⟩]⟩
    ⟨some ⟨some [("A", ⟨"img-a"⟩), ("B", ⟨""⟩)]⟩⟩ h).1
  rw [this]
  rfl

/-- When no interface declares a binding, the first loop returns the
accumulator untouched. -/
theorem buildBindingByName_no_bindings (config : KubeVirtConfiguration)
    (ifaces : List Iface) (hnone : ∀ iface ∈ ifaces, iface.binding = none) :
    ∀ acc, buildBindingByName config ifaces acc = .ok acc := by
  induction ifaces with
  | nil => intro acc; rfl
  | cons iface rest ih =>
    intro acc
    have hb := hnone iface (List.mem_cons_self _ _)
    have hrest := fun i h => hnone i (List.mem_cons_of_mem _ h)
    simp [buildBindingByName, hb, ih hrest]

/-- C10: a VMI none of whose interfaces declares a binding resolves to an
empty sidecar list with no error, for every configuration — including one
whose network configuration or binding catalog is entirely absent. -/
theorem c10_no_bindings_no_sidecars (vmi : VirtualMachineInstance)
    (config : KubeVirtConfiguration)
    (hnone : ∀ iface ∈ vmi.interfaces, iface.binding = none) :
    NetBindingPluginSidecarList vmi config = .ok [] := by
  simp only [NetBindingPluginSidecarList,
    buildBindingByName_no_bindings config vmi.interfaces hnone []]
  rfl

/-- C10 witness: two binding-less interfaces against a configuration with
no network configuration at all. -/
theorem c10_witness :
    (∀ iface ∈ (⟨[⟨none⟩, ⟨none⟩]⟩ : VirtualMachineInstance).interfaces,
      iface.binding = none) ∧
    NetBindingPluginSidecarList ⟨[⟨none⟩, ⟨none⟩]⟩ ⟨none⟩ = .ok [] := by
  have h : ∀ iface ∈ (⟨[⟨none⟩, ⟨none⟩]⟩ : VirtualMachineInstance).interfaces,
      iface.binding = none := by decide
  exact ⟨h, c10_no_bindings_no_sidecars ⟨[⟨none⟩, ⟨none⟩]⟩ ⟨none⟩ h⟩

/-! ## Claims about the start/stop executor -/

/-- C3: every create/delete issued by `startStop` is preceded in the action
trace by the matching expectation (`ExpectCreations(key, 1)` /
`ExpectDeletions(key, [childKey])`); when the API call fails, the
expectation is reversed (`CreationObserved` / `DeletionObserved`), a
warning event with the `FailedCreate` / `FailedDelete` reason is recorded,
and the error is returned. -/
theorem c3_expectations_bracket_api (env : ReconcileEnv)
    (ovm : OfflineVirtualMachine) (vm : Option VirtualMachine) :
    (∀ ns child, Act.apiCreate ns child ∈ (startStop env ovm vm).2 →
      ∃ i j, i < j ∧
        (startStop env ovm vm).2.get? i = some (Act.expectCreations (ovmKeyOf ovm) 1) ∧
        (startStop env ovm vm).2.get? j = some (Act.apiCreate ns child)) ∧
    (∀ ns nm, Act.apiDelete ns nm ∈ (startStop env ovm vm).2 →
      ∃ v, vm = some v ∧ ∃ i j, i < j ∧
        (startStop env ovm vm).2.get? i =
          some (Act.expectDeletions (ovmKeyOf ovm) [vmKeyOf v]) ∧
        (startStop env ovm vm).2.get? j = some (Act.apiDelete ns nm)) ∧
    (∀ e, env.createResult = .error e → ovm.spec.running = true → vm = none →
      (startStop env ovm vm).1 = some e ∧
      Act.creationObserved (ovmKeyOf ovm) ∈ (startStop env ovm vm).2 ∧
      Act.event .warning FailedCreateVirtualMachineReason ∈ (startStop env ovm vm).2) ∧
    (∀ e v, env.deleteResult = .error e → ovm.spec.running = false → vm = some v →
      (startStop env ovm vm).1 = some e ∧
      Act.deletionObserved (ovmKeyOf ovm) (vmKeyOf v) ∈ (startStop env ovm vm).2 ∧
      Act.event .warning FailedDeleteVirtualMachineReason ∈ (startStop env ovm vm).2) := by
  cases hrun : ovm.spec.running with
  | false =>
    cases vm with
    | none =>
      refine ⟨?_, ?_, ?_, ?_⟩ <;> simp [startStop, hrun]
    | some v =>
      cases hdel : env.deleteResult with
      | error e =>
        refine ⟨?_, ?_, ?_, ?_⟩
        · intro ns child hmem
          simp [startStop, hrun, hdel] at hmem
        · intro ns nm hmem
          simp only [startStop, hrun, hdel] at hmem ⊢
          simp at hmem
          obtain ⟨hns, hnm⟩ := hmem
          subst hns; subst hnm
          exact ⟨v, rfl, 0, 1, by omega, rfl, rfl⟩
        · intro e' _ hcontra _
          simp at hcontra
        · intro e' v' hde _ hv
          cases hv
          injection hde with he
          subst he
          simp [startStop, hrun, hdel]
      | ok u =>
        refine ⟨?_, ?_, ?_, ?_⟩
        · intro ns child hmem
          simp [startStop, hrun, hdel] at hmem
        · intro ns nm hmem
          simp only [startStop, hrun, hdel] at hmem ⊢
          simp at hmem
          obtain ⟨hns, hnm⟩ := hmem
          subst hns; subst hnm
          exact ⟨v, rfl, 0, 1, by omega, rfl, rfl⟩
        · intro e' _ hcontra _
          simp at hcontra
        · intro e' v' hde _ _
          cases hde
  | true =>
    cases vm with
    | some v =>
      refine ⟨?_, ?_, ?_, ?_⟩ <;> simp [startStop, hrun]
    | none =>
      cases hcr : env.createResult with
      | error e =>
        refine ⟨?_, ?_, ?_, ?_⟩
        · intro ns child hmem
          simp only [startStop, hrun, hcr] at hmem ⊢
          simp at hmem
          obtain ⟨hns, hchild⟩ := hmem
          subst hns; subst hchild
          exact ⟨0, 1, by omega, rfl, rfl⟩
        · intro ns nm hmem
          simp [startStop, hrun, hcr] at hmem
        · intro e' hce _ _
          injection hce with he
          subst he
          simp [startStop, hrun, hcr]
        · intro e' v' _ hcontra _
          simp at hcontra
      | ok u =>
        refine ⟨?_, ?_, ?_, ?_⟩
        · intro ns child hmem
          simp only [startStop, hrun, hcr] at hmem ⊢
          simp at hmem
          obtain ⟨hns, hchild⟩ := hmem
          subst hns; subst hchild
          exact ⟨0, 1, by omega, rfl, rfl⟩
        · intro ns nm hmem
          simp [startStop, hrun, hcr] at hmem
        · intro e' hce _ _
          cases hce
        · intro e' v' _ hcontra _
          simp at hcontra

/-- A template used by the concrete reconcile scenarios. -/
def sampleTemplate : VMTemplateSpec :=
  { objectMeta :=
      { name := "", generateName := "", ns := "", uid := ""
        labels := [("app", "p")], ownerReferences := []
        deletionTimestamp := none, finalizers := [] }
    spec := "vm-spec" }

/-- A valid parent in namespace `default` that wants its child running. -/
def sampleOvmRunning : OfflineVirtualMachine :=
  { metadata :=
      { name := "p", generateName := "", ns := "default", uid := "u1"
        labels := [], ownerReferences := [], deletionTimestamp := none
        finalizers := [] }
    spec :=
      { running := true
        template := some sampleTemplate
        selector := some { matchLabels := [("app", "p")], valid := true } }
    status := { conditions := [] } }

/-- An environment whose create call fails with `boom` and whose other
collaborators all succeed. -/
def sampleEnvCreateFail : ReconcileEnv :=
  { getOvm := .ok (some sampleOvmRunning)
    satisfied := true
    listVMs := .ok []
    claim := fun vms => (.ok vms, [])
    createResult := .error "boom"
    deleteResult := .ok ()
    updateResult := .ok ()
    orphanResult := none
    now := 7 }

/-- C3 witness: with the create call failing, `startStop` returns the error
and the trace holds the rollback observation and the warning event. -/
theorem c3_witness :
    (startStop sampleEnvCreateFail sampleOvmRunning none).1 = some "boom" ∧
    Act.creationObserved (ovmKeyOf sampleOvmRunning) ∈
      (startStop sampleEnvCreateFail sampleOvmRunning none).2 ∧
    Act.event .warning FailedCreateVirtualMachineReason ∈
      (startStop sampleEnvCreateFail sampleOvmRunning none).2 :=
  (c3_expectations_bracket_api sampleEnvCreateFail sampleOvmRunning none).2.2.1
    "boom" rfl rfl rfl

/-- C5: every child handed to the create call by `startStop` carries exactly
one owner reference — kind the parent kind, name and UID the parent's,
`Controller` and `BlockOwnerDeletion` true — and the template's labels. -/
theorem c5_created_child_owner_ref (env : ReconcileEnv)
    (ovm : OfflineVirtualMachine) (vm : Option VirtualMachine)
    (tpl : VMTemplateSpec) (ns : String) (child : VirtualMachine)
    (htpl : ovm.spec.template = some tpl)
    (hmem : Act.apiCreate ns child ∈ (startStop env ovm vm).2) :
    (∃ ref, child.metadata.ownerReferences = [ref] ∧
      ref.kind = OfflineVirtualMachineKind ∧
      ref.name = ovm.metadata.name ∧
      ref.uid = ovm.metadata.uid ∧
      ref.controller = true ∧
      ref.blockOwnerDeletion = true) ∧
    child.metadata.labels = tpl.objectMeta.labels := by
  have hchild : child = buildVirtualMachine ovm := by
    cases hrun : ovm.spec.running with
    | false =>
      cases vm with
      | none => simp [startStop, hrun] at hmem
      | some v =>
        cases hdel : env.deleteResult with
        | error e => simp [startStop, hrun, hdel] at hmem
        | ok u => simp [startStop, hrun, hdel] at hmem
    | true =>
      cases vm with
      | some v => simp [startStop, hrun] at hmem
      | none =>
        cases hcr : env.createResult with
        | error e =>
          simp [startStop, hrun, hcr] at hmem
          exact hmem.2
        | ok u =>
          simp [startStop, hrun, hcr] at hmem
          exact hmem.2
  subst hchild
  unfold buildVirtualMachine
  rw [htpl]
  exact ⟨⟨_, rfl, rfl, rfl, rfl, rfl, rfl⟩, rfl⟩

/-- C5 witness: the concrete create issued for `sampleOvmRunning` satisfies
the owner-reference and label properties. -/
theorem c5_witness :
    sampleOvmRunning.spec.template = some sampleTemplate ∧
    Act.apiCreate "default" (buildVirtualMachine sampleOvmRunning) ∈
      (startStop sampleEnvCreateFail sampleOvmRunning none).2 ∧
    ((∃ ref, (buildVirtualMachine sampleOvmRunning).metadata.ownerReferences = [ref] ∧
      ref.kind = OfflineVirtualMachineKind ∧
      ref.name = sampleOvmRunning.metadata.name ∧
      ref.uid = sampleOvmRunning.metadata.uid ∧
      ref.controller = true ∧
      ref.blockOwnerDeletion = true) ∧
    (buildVirtualMachine sampleOvmRunning).metadata.labels =
      sampleTemplate.objectMeta.labels) := by
  have hmem : Act.apiCreate "default" (buildVirtualMachine sampleOvmRunning) ∈
      (startStop sampleEnvCreateFail sampleOvmRunning none).2 := by
    simp [startStop, sampleEnvCreateFail, sampleOvmRunning]
  exact ⟨rfl, hmem,
    c5_created_child_owner_ref sampleEnvCreateFail sampleOvmRunning none
      sampleTemplate "default" (buildVirtualMachine sampleOvmRunning) rfl hmem⟩

/-! ## Lemmas about the status synthesizer -/

/-- Number of conditions of a given type. -/
def countCond (t : OvmConditionType) (conds : List OvmCondition) : Nat :=
  (conds.filter (fun c => c.condType == t)).length

/-- Appending one condition raises exactly its own type's count. -/
theorem countCond_append (t : OvmConditionType) (l : List OvmCondition)
    (c : OvmCondition) :
    countCond t (l ++ [c]) =
      countCond t l + (if c.condType == t then 1 else 0) := by
  simp only [countCond, List.filter_append, List.length_append]
  by_cases h : c.condType == t
  · simp [List.filter_cons, h]
  · simp [List.filter_cons, h]

/-- Filtering a type out leaves none of it. -/
theorem countCond_filter_self (t : OvmConditionType) (l : List OvmCondition) :
    countCond t (l.filter (fun c => c.condType != t)) = 0 := by
  simp only [countCond, List.length_eq_zero]
  rw [List.filter_filter]
  apply List.filter_eq_nil_iff.mpr
  intro c _
  simp [bne]

/-- Filtering another type out leaves a type's count unchanged. -/
theorem countCond_filter_other (t t' : OvmConditionType) (hne : t ≠ t')
    (l : List OvmCondition) :
    countCond t (l.filter (fun c => c.condType != t')) = countCond t l := by
  induction l with
  | nil => rfl
  | cons c rest ih =>
    by_cases hc : c.condType = t
    · have h1 : (c.condType != t') = true := by
        simp [bne, hc]
        exact hne
      have h2 : (c.condType == t) = true := by simp [hc]
      simp [countCond, List.filter_cons, h1, h2] at ih ⊢
      omega
    · have h2 : (c.condType == t) = false := by simp [hc]
      by_cases hc' : c.condType = t'
      · have h1 : (c.condType != t') = false := by simp [bne, hc']
        simp [countCond, List.filter_cons, h1, h2] at ih ⊢
        exact ih
      · have h1 : (c.condType != t') = true := by simp [bne, hc']
        simp [countCond, List.filter_cons, h1, h2] at ih ⊢
        exact ih

/-- A type the parent does not have occurs zero times. -/
theorem countCond_of_not_has (ovm : OfflineVirtualMachine)
    (t : OvmConditionType) (h : hasCondition ovm t = false) :
    countCond t ovm.status.conditions = 0 := by
  simp only [hasCondition, List.any_eq_false] at h
  simp only [countCond, List.length_eq_zero]
  exact List.filter_eq_nil_iff.mpr h

/-- `processFailure` keeps at most one `Failure` condition (given at most
one to start with) and never changes the number of `Running` conditions. -/
theorem processFailure_counts (ovm : OfflineVirtualMachine)
    (createErr : Option String) (now : Nat)
    (hF : countCond .Failure ovm.status.conditions ≤ 1) :
    countCond .Failure (processFailure ovm createErr now).status.conditions ≤ 1 ∧
    countCond .Running (processFailure ovm createErr now).status.conditions =
      countCond .Running ovm.status.conditions := by
  unfold processFailure
  cases createErr with
  | some msg =>
    cases hhas : hasCondition ovm .Failure with
    | false =>
      simp only [hhas, Bool.not_false, if_true]
      constructor
      · rw [countCond_append, countCond_of_not_has ovm .Failure hhas]
        simp
      · rw [countCond_append]
        simp
    | true =>
      simp only [hhas, Bool.not_true, Bool.false_eq_true, if_false]
      exact ⟨hF, trivial⟩
  | none =>
    cases hhas : hasCondition ovm .Failure with
    | false =>
      simp only [hhas, Bool.false_eq_true, if_false]
      exact ⟨hF, trivial⟩
    | true =>
      simp only [hhas, if_true, removeCondition]
      exact ⟨by simp [countCond_filter_self],
        countCond_filter_other .Running .Failure (by simp) _⟩

/-- After `processRunning` there is at most one `Running` condition, with
no precondition, and the number of `Failure` conditions is unchanged. -/
theorem processRunning_counts (ovm : OfflineVirtualMachine)
    (vm : Option VirtualMachine) (createErr : Option String) (now : Nat) :
    countCond .Running (processRunning ovm vm createErr now).status.conditions ≤ 1 ∧
    countCond .Failure (processRunning ovm vm createErr now).status.conditions =
      countCond .Failure ovm.status.conditions := by
  unfold processRunning
  by_cases hcond : (ovm.spec.running && createErr == none &&
      !hasCondition ovm .Running) = true
  · rw [if_pos hcond]
    have hhas : hasCondition ovm .Running = false := by
      cases h : hasCondition ovm .Running
      · rfl
      · rw [h] at hcond
        simp at hcond
    constructor
    · rw [countCond_append, countCond_of_not_has ovm .Running hhas]
      simp
    · rw [countCond_append]
      simp
  · rw [if_neg hcond]
    simp only [removeCondition]
    exact ⟨by simp [countCond_filter_self],
      countCond_filter_other .Failure .Running (by simp) _⟩

/-- C7: starting from a parent whose condition list has at most one
condition per type, running `processFailure` then `processRunning` (the
status synthesizer's mutation step) leaves at most one `Running` and at
most one `Failure` condition. -/
theorem c7_conditions_unique (ovm : OfflineVirtualMachine)
    (vm : Option VirtualMachine) (createErr : Option String) (now : Nat)
    (h : ∀ t, countCond t ovm.status.conditions ≤ 1) :
    countCond .Running
      (processRunning (processFailure ovm createErr now) vm createErr now).status.conditions ≤ 1 ∧
    countCond .Failure
      (processRunning (processFailure ovm createErr now) vm createErr now).status.conditions ≤ 1 := by
  obtain ⟨hF1, _⟩ := processFailure_counts ovm createErr now (h .Failure)
  obtain ⟨hR2, hF2⟩ :=
    processRunning_counts (processFailure ovm createErr now) vm createErr now
  exact ⟨hR2, by rw [hF2]; exact hF1⟩

/-- C7 witness: a parent with one `Running` condition and a create error
ends with at most one condition of each type. -/
theorem c7_witness :
    (∀ t, countCond t [⟨.Running, true, "r", "m", 0⟩] ≤ 1) ∧
    (countCond .Running
      (processRunning
        (processFailure
          { metadata := ⟨"p", "", "default", "u1", [], [], none, []⟩
            spec := ⟨true, none, none⟩
            status := ⟨[⟨.Running, true, "r", "m", 0⟩]⟩ } (some "boom") 3)
        none (some "boom") 3).status.conditions ≤ 1 ∧
    countCond .Failure
      (processRunning
        (processFailure
          { metadata := ⟨"p", "", "default", "u1", [], [], none, []⟩
            spec := ⟨true, none, none⟩
            status := ⟨[⟨.Running, true, "r", "m", 0⟩]⟩ } (some "boom") 3)
        none (some "boom") 3).status.conditions ≤ 1) := by
  have h : ∀ t, countCond t [⟨.Running, true, "r", "m", 0⟩] ≤ 1 := by
    intro t
    cases t <;> decide
  exact ⟨h,
    c7_conditions_unique
      { metadata := ⟨"p", "", "default", "u1", [], [], none, []⟩
        spec := ⟨true, none, none⟩
        status := ⟨[⟨.Running, true, "r", "m", 0⟩]⟩ } none (some "boom") 3 h⟩

/-- `processFailure` only touches `status`. -/
theorem processFailure_frame (ovm : OfflineVirtualMachine)
    (createErr : Option String) (now : Nat) :
    (processFailure ovm createErr now).spec = ovm.spec ∧
    (processFailure ovm createErr now).metadata = ovm.metadata := by
  unfold processFailure
  cases createErr with
  | some msg =>
    by_cases h : hasCondition ovm .Failure = true
    · simp [h]
    · simp [h]
  | none =>
    by_cases h : hasCondition ovm .Failure = true
    · simp [h, removeCondition]
    · simp [h]

/-- `processRunning` only touches `status`. -/
theorem processRunning_frame (ovm : OfflineVirtualMachine)
    (vm : Option VirtualMachine) (createErr : Option String) (now : Nat) :
    (processRunning ovm vm createErr now).spec = ovm.spec ∧
    (processRunning ovm vm createErr now).metadata = ovm.metadata := by
  unfold processRunning
  by_cases h : (ovm.spec.running && createErr == none &&
      !hasCondition ovm .Running) = true
  · simp [h]
  · simp [h, removeCondition]

/-- C6: `updateStatus` issues no update when the error state and the
running state both already agree with the condition set; and every parent
object it hands to the update call differs from the input only in its
status — `spec` and `metadata` are untouched. -/
theorem c6_updateStatus_frame (env : ReconcileEnv)
    (ovm : OfflineVirtualMachine) (vm : Option VirtualMachine)
    (createErr : Option String) :
    (createErr.isSome = hasCondition ovm .Failure →
      ovm.spec.running = hasCondition ovm .Running →
      updateStatus env ovm vm createErr = (none, [])) ∧
    (∀ o, Act.apiUpdateOvm o ∈ (updateStatus env ovm vm createErr).2 →
      o.spec = ovm.spec ∧ o.metadata = ovm.metadata) := by
  constructor
  · intro h1 h2
    unfold updateStatus
    rw [← h1, ← h2]
    simp
  · intro o hmem
    unfold updateStatus at hmem
    by_cases hmatch : ((createErr.isSome == hasCondition ovm .Failure) &&
        (ovm.spec.running == hasCondition ovm .Running)) = true
    · rw [if_pos hmatch] at hmem
      cases hmem
    · rw [if_neg hmatch] at hmem
      have hframe :
          (processRunning (processFailure ovm createErr env.now) vm createErr env.now).spec
              = ovm.spec ∧
          (processRunning (processFailure ovm createErr env.now) vm createErr env.now).metadata
              = ovm.metadata := by
        obtain ⟨hs1, hm1⟩ := processFailure_frame ovm createErr env.now
        obtain ⟨hs2, hm2⟩ :=
          processRunning_frame (processFailure ovm createErr env.now) vm createErr env.now
        exact ⟨hs2.trans hs1, hm2.trans hm1⟩
      cases hup : env.updateResult with
      | error e =>
        rw [hup] at hmem
        simp at hmem
        rw [hmem]
        exact hframe
      | ok u =>
        rw [hup] at hmem
        simp at hmem
        first
        | exact hframe
        | (rw [hmem]; exact hframe)

/-- A quiescent parent: stopped, no conditions — both matches hold. -/
def sampleOvmQuiet : OfflineVirtualMachine :=
  { metadata :=
      { name := "q", generateName := "", ns := "default", uid := "u2"
        labels := [], ownerReferences := [], deletionTimestamp := none
        finalizers := [] }
    spec := { running := false, template := none, selector := none }
    status := { conditions := [] } }

/-- The parent object `updateStatus` writes for `sampleOvmRunning` with no
create error. -/
def sampleWrittenOvm : OfflineVirtualMachine :=
  processRunning (processFailure sampleOvmRunning none 7) none none 7

/-- C6 witness: a quiescent parent triggers no write, and the object
written for `sampleOvmRunning` keeps its spec and metadata. -/
theorem c6_witness :
    updateStatus sampleEnvCreateFail sampleOvmQuiet none none = (none, []) ∧
    (sampleWrittenOvm.spec = sampleOvmRunning.spec ∧
      sampleWrittenOvm.metadata = sampleOvmRunning.metadata) := by
  constructor
  · exact (c6_updateStatus_frame sampleEnvCreateFail sampleOvmQuiet none none).1 rfl rfl
  · exact (c6_updateStatus_frame sampleEnvCreateFail sampleOvmRunning none none).2
      sampleWrittenOvm (by decide)

/-! ## Claims about the reconciler -/

/-- C4: an invalid parent — template missing, selector missing, template
labels empty, selector unparsable, or selector not matching the template
labels — makes `execute` return success with no actions at all (no
adoption, no scaling, no status update), so `Execute` forgets the key
instead of re-enqueuing it. -/
theorem c4_invalid_parent_no_requeue (env : ReconcileEnv) (key : String)
    (ovm : OfflineVirtualMachine)
    (hget : env.getOvm = .ok (some ovm))
    (hinvalid :
      ovm.spec.template = none ∨
      ovm.spec.selector = none ∨
      (∃ tpl, ovm.spec.template = some tpl ∧ tpl.objectMeta.labels.length = 0) ∨
      (∃ sel, ovm.spec.selector = some sel ∧ labelSelectorAsSelector sel = none) ∨
      (∃ tpl sel s, ovm.spec.template = some tpl ∧ ovm.spec.selector = some sel ∧
        labelSelectorAsSelector sel = some s ∧
        selMatches s tpl.objectMeta.labels = false)) :
    execute env key = (none, []) ∧
    executeStep (execute env key).1 key = .forget key := by
  have hmain : execute env key = (none, []) := by
    rcases hinvalid with h | h | ⟨tpl, htpl, h⟩ | ⟨sel, hsel, h⟩ |
      ⟨tpl, sel, s, htpl, hsel, hparse, h⟩
    · simp [execute, hget, h]
    · cases htplc : ovm.spec.template with
      | none => simp [execute, hget, htplc]
      | some tpl => simp [execute, hget, htplc, h]
    · cases hselc : ovm.spec.selector with
      | none => simp [execute, hget, htpl, hselc]
      | some sel => simp [execute, hget, htpl, hselc, h]
    · cases htplc : ovm.spec.template with
      | none => simp [execute, hget, htplc]
      | some tpl =>
        by_cases hlen : tpl.objectMeta.labels.length = 0
        · simp [execute, hget, htplc, hsel, hlen]
        · simp [execute, hget, htplc, hsel, hlen, h]
    · by_cases hlen : tpl.objectMeta.labels.length = 0
      · simp [execute, hget, htpl, hsel, hlen]
      · simp [execute, hget, htpl, hsel, hlen, hparse, h]
  exact ⟨hmain, by rw [hmain]; rfl⟩

/-- A parent without template or selector. -/
def sampleOvmInvalid : OfflineVirtualMachine :=
  { metadata :=
      { name := "i", generateName := "", ns := "default", uid := "u3"
        labels := [], ownerReferences := [], deletionTimestamp := none
        finalizers := [] }
    spec := { running := true, template := none, selector := none }
    status := { conditions := [] } }

/-- An environment whose parent cache returns the invalid parent. -/
def sampleEnvInvalid : ReconcileEnv :=
  { getOvm := .ok (some sampleOvmInvalid)
    satisfied := true
    listVMs := .ok []
    claim := fun vms => (.ok vms, [])
    createResult := .ok ()
    deleteResult := .ok ()
    updateResult := .ok ()
    orphanResult := none
    now := 7 }

/-- C4 witness: reconciling the template-less parent does nothing and
forgets the key. -/
theorem c4_witness :
    execute sampleEnvInvalid "default/i" = (none, []) ∧
    executeStep (execute sampleEnvInvalid "default/i").1 "default/i" =
      .forget "default/i" :=
  c4_invalid_parent_no_requeue sampleEnvInvalid "default/i" sampleOvmInvalid
    rfl (Or.inl rfl)

/-- An environment whose parent-cache lookup by key fails. -/
def sampleEnvGetFail : ReconcileEnv :=
  { getOvm := .error "cache-broken"
    satisfied := true
    listVMs := .ok []
    claim := fun vms => (.ok vms, [])
    createResult := .ok ()
    deleteResult := .ok ()
    updateResult := .ok ()
    orphanResult := none
    now := 7 }

/-- C2 counterexample: a failing parent-cache lookup by key does NOT cause
a non-nil return — `execute` swallows it (lines 122-125 `return nil`), so
the key is forgotten rather than re-enqueued. -/
theorem c2_counterexample_get_error_swallowed :
    sampleEnvGetFail.getOvm = .error "cache-broken" ∧
    (execute sampleEnvGetFail "default/p").1 = none ∧
    executeStep (execute sampleEnvGetFail "default/p").1 "default/p" =
      .forget "default/p" :=
  ⟨rfl, rfl, rfl⟩

/-- C2 (amended): an error from the child-cache list is returned from
`execute`, so the key is re-enqueued with rate-limited backoff; an error
from the parent-cache lookup by key, however, is swallowed — `execute`
returns success and the key is forgotten. -/
theorem c2_list_errors_returned :
    (∀ env key e, env.getOvm = .error e →
      execute env key = (none, []) ∧
      executeStep (execute env key).1 key = .forget key) ∧
    (∀ env key e (ovm : OfflineVirtualMachine) tpl sel s,
      env.getOvm = .ok (some ovm) →
      ovm.spec.template = some tpl →
      ovm.spec.selector = some sel →
      tpl.objectMeta.labels.length ≠ 0 →
      labelSelectorAsSelector sel = some s →
      selMatches s tpl.objectMeta.labels = true →
      env.listVMs = .error e →
      (execute env key).1 = some e ∧
      executeStep (execute env key).1 key = .addRateLimited key) := by
  constructor
  · intro env key e hget
    have hmain : execute env key = (none, []) := by
      simp [execute, hget]
    exact ⟨hmain, by rw [hmain]; rfl⟩
  · intro env key e ovm tpl sel s hget htpl hsel hlen hparse hmatch hlist
    have hmain : (execute env key).1 = some e := by
      simp [execute, hget, htpl, hsel, hlen, hparse, hmatch, hlist]
    exact ⟨hmain, by rw [hmain]; rfl⟩

/-- An environment with a valid parent whose child-cache list fails. -/
def sampleEnvListFail : ReconcileEnv :=
  { getOvm := .ok (some sampleOvmRunning)
    satisfied := true
    listVMs := .error "list-broken"
    claim := fun vms => (.ok vms, [])
    createResult := .ok ()
    deleteResult := .ok ()
    updateResult := .ok ()
    orphanResult := none
    now := 7 }

/-- C2 witness: the swallowed lookup error and the returned list error, at
concrete environments. -/
theorem c2_witness :
    (execute sampleEnvGetFail "default/p" = (none, []) ∧
      executeStep (execute sampleEnvGetFail "default/p").1 "default/p" =
        .forget "default/p") ∧
    ((execute sampleEnvListFail "default/p").1 = some "list-broken" ∧
      executeStep (execute sampleEnvListFail "default/p").1 "default/p" =
        .addRateLimited "default/p") := by
  constructor
  · exact c2_list_errors_returned.1 sampleEnvGetFail "default/p" "cache-broken" rfl
  · exact c2_list_errors_returned.2 sampleEnvListFail "default/p" "list-broken"
      sampleOvmRunning sampleTemplate
      { matchLabels := [("app", "p")], valid := true } [("app", "p")]
      rfl rfl rfl (by decide) rfl (by decide) rfl

/-- An owned child used in the degenerate two-children scenario. -/
def sampleChildA : VirtualMachine :=
  { metadata :=
      { name := "c1", generateName := "", ns := "default", uid := "cu1"
        labels := [("app", "p")], ownerReferences := [], deletionTimestamp := none
        finalizers := [] }
    spec := ""
    final := false }

/-- A second owned child for the degenerate scenario. -/
def sampleChildB : VirtualMachine :=
  { metadata :=
      { name := "c2", generateName := "", ns := "default", uid := "cu2"
        labels := [("app", "p")], ownerReferences := [], deletionTimestamp := none
        finalizers := [] }
    spec := ""
    final := false }

/-- An environment where the claim step returns two owned children for the
valid running parent. -/
def sampleEnvTwoChildren : ReconcileEnv :=
  { getOvm := .ok (some sampleOvmRunning)
    satisfied := true
    listVMs := .ok [sampleChildA, sampleChildB]
    claim := fun vms => (.ok vms, [])
    createResult := .ok ()
    deleteResult := .ok ()
    updateResult := .ok ()
    orphanResult := none
    now := 7 }

/-- C1 at the failing input: with two claimed children, `execute` takes the
`len(vms) > 1` branch (line 187-190) and returns the stale claim error —
necessarily nil — performing no scaling action and, contrary to the claim,
no status computation or update either. -/
theorem c1_code_bug_two_children :
    (sampleEnvTwoChildren.claim [sampleChildA, sampleChildB]).1 =
      .ok [sampleChildA, sampleChildB] ∧
    execute sampleEnvTwoChildren "default/p" = (none, []) ∧
    ∀ o, Act.apiUpdateOvm o ∉ (execute sampleEnvTwoChildren "default/p").2 := by
  have hmain : execute sampleEnvTwoChildren "default/p" = (none, []) := by decide
  refine ⟨rfl, hmain, ?_⟩
  intro o
  rw [hmain]
  simp
